import Mathlib

/-
Verification of the ESP state-machine script compiler
(`soulstruct/base/ezstate/esd/esp_compiler.py`).

The Python class `ESPCompiler` is embedded shallowly:

* AST node kinds that the compiler inspects become Lean inductives.
  Python `ast` nodes compare by object identity, so the node kinds that the
  compiler stores and compares as values (`ast.Name`, `ast.Subscript`, kept
  verbatim by `parse_args`) carry an allocation identity `nid : Nat`; in any
  parsed tree all `nid`s are distinct, so structural equality of the model
  coincides with Python's identity equality.
* The mutable instance attributes of `ESPCompiler` (globals, state_info,
  states, registers, state_call_set, to_write_count, to_write,
  current_to_write) become one explicit state record `CompilerSt`, threaded
  with `StateT`; exceptions become `Except Err`.
* The external per-game tables (`TEST_FUNCTIONS_ID_BY_TYPE_NAME`,
  `COMMANDS_BANK_ID_BY_TYPE_NAME`, `FUNCTION_ARG_BYTES_BY_COUNT`), which the
  repository treats as static external data, are parameters (`Tables`).
* Non-structural recursion (the condition tree walk) uses an explicit fuel
  parameter; fuel exhaustion is the distinguished error `Err.fuelOut` and
  never fires on the concrete inputs used below.
* `queue.Queue` is FIFO: `put` appends at the back, `get` takes the front.
  `get` on an empty queue blocks forever in Python; the model returns the
  distinguished error `Err.queueEmpty` (it never fires in the runs below).
-/

/-- Error kinds raised by the compiler (ESD exceptions and raw Python ones). -/
inductive Err where
  | esdSyntaxError
  | esdValueError
  | esdError
  | pyValueError      -- raw `ValueError` (e.g. `list.remove(x)` with `x` absent, `int('')`)
  | pyTypeError       -- raw `TypeError` (e.g. `bytes += None`, the final raise in `compile_ezl`)
  | pyKeyError        -- raw `KeyError` (dict lookup misses)
  | pyAttributeError  -- raw `AttributeError`
  | structRange       -- `struct.error`: argument out of range for `struct.pack('<i', n)`
  | queueEmpty        -- model marker: `Queue.get()` on an empty queue (blocks in Python)
  | fuelOut           -- model marker: recursion fuel exhausted
deriving Repr, DecidableEq

/-- An `ast.Name` or `ast.Subscript` node kept verbatim by `parse_args`.
`nid` is the node's allocation identity (all distinct within one parse). -/
inductive SymNode where
  | nameN (nid : Nat) (id : String)
  | subN (nid : Nat) (base : String) (idx : Int)  -- `base[idx]` with a literal index
deriving Repr, DecidableEq

/-- Test expressions: the `ast` node kinds handled by `compile_ezl`/`get_calls`. -/
inductive TestExpr where
  | num (n : Int)                                  -- `ast.Num` (integer constant)
  | boolConst (b : Bool)                           -- `ast.NameConstant` True/False
  | sym (s : SymNode)                              -- `ast.Name` / `ast.Subscript`
  | attrRef (m : String) (a : String)              -- `ast.Attribute` (`m.a`)
  | neg (operand : TestExpr)                       -- `ast.UnaryOp` with `ast.USub`
  | notOp (operand : TestExpr)                     -- `ast.UnaryOp` with `ast.Not`
  | boolOp (isAnd : Bool) (values : List TestExpr) -- `ast.BoolOp` (And/Or)
  | call (func : String) (args : List TestExpr) (kwargs : List TestExpr)  -- `ast.Call`

/-- A literal-or-node argument value as produced by `parse_args`. -/
inductive ArgVal where
  | int (n : Int)       -- a plain Python int (from `ast.Num`, negation, or attribute lookup)
  | node (s : SymNode)  -- an `ast.Subscript`/`ast.Name` object kept verbatim
deriving Repr, DecidableEq

/-- First tuple component of a call signature.  `get_calls` uses the function
NAME string; `compile_test_function` uses the resolved numeric id.  Python
tuple equality makes a string and an int compare unequal. -/
inductive SigHead where
  | nameHead (s : String)
  | idHead (n : Int)
deriving Repr, DecidableEq

/-- A call tuple `(head, arg1, arg2, ...)` used as register/memoization key. -/
structure CallSig where
  head : SigHead
  args : List ArgVal
deriving Repr, DecidableEq

/-- `Return` statement payloads distinguished by `build_conditions`. -/
inductive RetExpr where
  | negConst (n : Int)  -- `ast.UnaryOp(ast.USub, ast.Constant(n))`, i.e. source `-n`
  | constE (n : Int)    -- a bare `ast.Constant(n)`
  | nameE (s : String)  -- `ast.Name`
deriving Repr

/-- Function reference of a command call: a plain name or `BASE[idx]`. -/
inductive FuncRef where
  | named (s : String)
  | subscripted (base : String) (idx : Int)
deriving Repr

/-- An `ast.Expr(ast.Call(...))` command statement. -/
structure CmdCall where
  func : FuncRef
  args : List TestExpr
  kwargs : List TestExpr

/-- Statements inside a state's `test()` body (and command blocks). -/
inductive Stmt where
  | ifStmt (test : TestExpr) (body : List Stmt) (orelse : List Stmt)
  | ret (value : RetExpr)
  | callStmt (c : CmdCall)
  | otherStmt            -- any other statement kind

/-- Elements of a state class body. -/
inductive ClassElem where
  | strExpr (s : String)                       -- a docstring expression statement
  | funcD (name : String) (body : List Stmt)    -- `ast.FunctionDef`
  | nonFunc                                    -- any other statement

/-- A state class definition. -/
structure ClassNode where
  name : String
  body : List ClassElem

/-- Top-level script statements seen by `compile_script`.
`importFromStmt` carries the bindings the (out-of-scope) import collaborator
would resolve, as `(object-name, attribute, value)` triples. -/
inductive TopNode where
  | importStmt
  | importFromStmt (binds : List (String × String × Int))
  | classDef (c : ClassNode)
  | otherTop

/-- `self.state_info[name]` entry built by `scan_state`. -/
structure StateInfo where
  index : Int
  description : Option String
  nodes : List ClassElem

/-- `Command(bank, f_id, args)` record. -/
structure Command where
  bank : Int
  f_id : Int
  args : List (List Nat)

/-- `Condition(next_state_index, test_ezl, pass_commands, subconditions)`. -/
inductive Condition where
  | mk (next_state : Int) (test_ezl : List Nat)
       (pass_commands : List Command) (subconditions : List Condition)

def Condition.next_state : Condition → Int
  | .mk n _ _ _ => n

def Condition.test_ezl : Condition → List Nat
  | .mk _ t _ _ => t

def Condition.subconditions : Condition → List Condition
  | .mk _ _ _ s => s

/-- `State(index, conditions, enter_commands, exit_commands, ongoing_commands)`. -/
structure StateRec where
  index : Int
  conditions : List Condition
  enter_commands : List Command
  exit_commands : List Command
  ongoing_commands : List Command

/-- The resolved two-level constant namespace `self.globals`
(`globals[objName][attr] = value`), as insertion-ordered triples. -/
abbrev Globals := List (String × String × Int)

/-- The mutable instance state of `ESPCompiler`. -/
structure CompilerSt where
  globals : Globals
  state_info : List (String × StateInfo)   -- insertion-ordered dict, keyed by class name
  states : List (Int × StateRec)           -- insertion-ordered dict, keyed by state index
  registers : List (Option CallSig)        -- `[()] * 8`; `none` is the empty tuple
  state_call_set : List CallSig            -- `self.state_call_set` (a set)
  to_write_count : Nat
  to_write : List (List CallSig)           -- FIFO queue; head is the front
  current_to_write : List CallSig

/-- The state of a freshly constructed `ESPCompiler` (its `__init__`). -/
def initSt : CompilerSt :=
  { globals := []
    state_info := []
    states := []
    registers := List.replicate 8 none
    state_call_set := []
    to_write_count := 0
    to_write := []
    current_to_write := [] }

/-- The external per-game tables (static data, out of the core's scope). -/
structure Tables where
  test_functions : String → Option Int          -- TEST_FUNCTIONS_ID_BY_TYPE_NAME (ESD type fixed)
  commands : String → Option (Int × Int)        -- COMMANDS_BANK_ID_BY_TYPE_NAME (ESD type fixed)
  function_arg_bytes : Nat → Option (List Nat)  -- FUNCTION_ARG_BYTES_BY_COUNT

/-- The compiler monad: explicit `ESPCompiler` instance state over exceptions. -/
abbrev M (α : Type) := StateT CompilerSt (Except Err) α

def liftE {α : Type} (e : Except Err α) : M α :=
  match e with
  | .ok a => pure a
  | .error err => throw err

/-- Ordered-dict lookup (first match; keys are unique by construction). -/
def dlookup {V : Type} (l : List (String × V)) (k : String) : Option V :=
  (l.find? (fun p => p.1 == k)).map (·.2)

/-- Ordered-dict update: replace in place if the key exists, else append
(Python dict assignment keeps the original insertion position). -/
def dset {K V : Type} [BEq K] (l : List (K × V)) (k : K) (v : V) : List (K × V) :=
  if l.any (fun p => p.1 == k) then
    l.map (fun p => if p.1 == k then (k, v) else p)
  else l ++ [(k, v)]

/-- Two-level lookup `self.globals[m][a]`; later imports override earlier ones. -/
def glookup (g : Globals) (m a : String) : Option Int :=
  ((g.filter (fun t => t.1 == m && t.2.1 == a)).getLast?).map (·.2.2)

/-- Python `set.add`. -/
def set_add (l : List CallSig) (c : CallSig) : List CallSig :=
  if l.contains c then l else l ++ [c]

/-- Python `list.remove`: drop the first occurrence, `ValueError` if absent. -/
def py_remove {α : Type} [DecidableEq α] (l : List α) (a : α) : Except Err (List α) :=
  if a ∈ l then .ok (l.erase a) else .error .pyValueError

/-- The four bytes of `struct.pack('<i', n)` (little-endian, two's complement). -/
def int32_le_bytes (n : Int) : List Nat :=
  let m := (n % (2 ^ 32 : Int)).toNat
  [m % 256, m / 256 % 256, m / 65536 % 256, m / 16777216 % 256]

/-- `struct.pack('<i', n)`: raises `struct.error` outside the signed 32-bit range. -/
def pack_int32_le (n : Int) : Except Err (List Nat) :=
  if -(2 ^ 31 : Int) ≤ n ∧ n < 2 ^ 31 then .ok (int32_le_bytes n)
  else .error .structRange

/-- `ESPCompiler.compile_number` restricted to `int` inputs (the claims'
subject; the `float` branch packs a little-endian double and is not modelled). -/
def compile_number (n : Int) : Except Err (List Nat) :=
  if -64 ≤ n ∧ n < 63 then .ok [(n + 64).toNat]
  else (pack_int32_le n).map (fun bs => 0x82 :: bs)

/-- Strip a literal prefix from a character list (`re.match` anchoring). -/
def dropPre : List Char → List Char → Option (List Char)
  | [], s => some s
  | _ :: _, [] => none
  | a :: ps, b :: ss => if a = b then dropPre ps ss else none

/-- The longest leading digit run (regex `\d*` applied greedily). -/
def takeDigits : List Char → List Char
  | [] => []
  | c :: cs => if c.isDigit then c :: takeDigits cs else []

/-- Decimal value of a digit run. -/
def digitsVal : List Char → Nat → Nat
  | [], acc => acc
  | c :: cs, acc => digitsVal cs (acc * 10 + (c.toNat - 48))

/-- Python `int(s)` on a digit run: `int('')` raises a raw `ValueError`. -/
def intOfDigits (cs : List Char) : Except Err Nat :=
  if cs.isEmpty then .error .pyValueError else .ok (digitsVal cs 0)

/-- `_TEST_DEFAULT_RE = Test_(?:talk|chr)_(\d*)` applied with `re.match`, then
`int(group(1))`.  A name not matching raises `AttributeError` on `.group`,
which the caller catches and turns into `ESDValueError`; a match with zero
digits makes `int('')` raise a raw `ValueError`. -/
def test_default (s : String) : Except Err Int :=
  let rem? : Option (List Char) :=
    match dropPre "Test_talk_".data s.data with
    | some r => some r
    | none => dropPre "Test_chr_".data s.data
  match rem? with
  | none => .error .esdValueError
  | some rem =>
    match intOfDigits (takeDigits rem) with
    | .ok n => .ok (n : Int)
    | .error e => .error e

/-- `_COMMAND_DEFAULT_RE = Command_(?:talk|chr)_(\d*)_(\d*)` applied with
`re.match`; no match raises `ESDError`, empty digit groups make `int('')`
raise a raw `ValueError`. -/
def command_default (s : String) : Except Err (Int × Int) :=
  let rem? : Option (List Char) :=
    match dropPre "Command_talk_".data s.data with
    | some r => some r
    | none => dropPre "Command_chr_".data s.data
  match rem? with
  | none => .error .esdError
  | some rem =>
    let d1 := takeDigits rem
    match rem.drop d1.length with
    | '_' :: rest2 =>
      match intOfDigits d1, intOfDigits (takeDigits rest2) with
      | .ok b, .ok i => .ok ((b : Int), (i : Int))
      | _, _ => .error .pyValueError
    | _ => .error .esdError

/-- `ESPCompiler.parse_args`: literals become Python values, `ast.Subscript`
and `ast.Name` nodes are appended verbatim (identity-compared objects),
attributes resolve through `self.globals`; anything else is `ESDValueError`.
A `-x` whose operand is not a numeric constant raises `AttributeError`
(`node.operand.n`). -/
def parse_args_pure (g : Globals) : List TestExpr → Except Err (List ArgVal)
  | [] => .ok []
  | node :: rest => do
    let a : ArgVal ←
      match node with
      | .num n => Except.ok (ArgVal.int n)
      | .neg (.num n) => Except.ok (ArgVal.int (-n))
      | .neg _ => Except.error Err.pyAttributeError
      | .sym s => Except.ok (ArgVal.node s)
      | .attrRef m at_ =>
        match glookup g m at_ with
        | some v => Except.ok (ArgVal.int v)
        | none => Except.error Err.pyKeyError
      | _ => Except.error Err.esdValueError
    let restA ← parse_args_pure g rest
    .ok (a :: restA)

mutual

/-- `ESPCompiler.get_calls`: the call tuples `(node.func.id, *parse_args(args))`
contained in a test expression.  Note the first component is the function
NAME (the docstring of `get_calls` says `(f_id, ...)`). -/
def get_calls (g : Globals) : TestExpr → Except Err (List CallSig)
  | .boolConst _ => .ok []             -- is_bool
  | .sym (.nameN _ _) => .ok []        -- ast.Name
  | .num _ => .ok []                   -- ast.Num
  | .neg e => get_calls g e            -- ast.UnaryOp (USub)
  | .notOp e => get_calls g e          -- ast.UnaryOp (Not)
  | .boolOp _ vs => get_calls_list g vs
  | .call f args _kws =>               -- kwargs are ignored here
    (parse_args_pure g args).map (fun a => [⟨.nameHead f, a⟩])
  | .sym (.subN _ _ _) => .error .esdSyntaxError  -- falls through to the final raise
  | .attrRef _ _ => .error .esdSyntaxError        -- falls through to the final raise

def get_calls_list (g : Globals) : List TestExpr → Except Err (List CallSig)
  | [] => .ok []
  | v :: vs => do
    let c ← get_calls g v
    let cs ← get_calls_list g vs
    .ok (c ++ cs)

end

/-- Statement-level `ESPCompiler.is_call`: an `ast.Expr` wrapping an `ast.Call`. -/
def is_call : Stmt → Bool
  | .callStmt _ => true
  | _ => false

/-- `ESPCompiler.is_state_machine_call`: `CALL_STATE_MACHINE[idx](...)`. -/
def is_state_machine_call : Stmt → Bool
  | .callStmt c =>
    match c.func with
    | .subscripted base _ => base == "CALL_STATE_MACHINE"
    | _ => false
  | _ => false

/-- `ESPCompiler.plan_condition_registers`: walk the condition tree depth
first; per node, queue the calls that are seen again while fewer than eight
registers have been claimed; then collect the node's leading run of
subcondition `If` blocks and recurse under the same register state. -/
def plan_condition_registers : Nat → List Stmt → M Unit
  | 0, _ => throw .fuelOut
  | _ + 1, [] => pure ()
  | fuel + 1, if_node :: rest => do
    match if_node with
    | .ifStmt test body _orelse => do
      -- Process test nodes.
      let st0 ← get
      let call_list ← liftE (get_calls st0.globals test)
      let mut first_time_calls : List CallSig := []
      for c in call_list do
        let st ← get
        if st.state_call_set.contains c && decide (st.to_write_count < 8) then
          -- Call occurs more than once, so a register will be used for it.
          first_time_calls := first_time_calls ++ [c]
          modify fun s => { s with to_write_count := s.to_write_count + 1 }
        else
          modify fun s => { s with state_call_set := set_add s.state_call_set c }
      modify fun s => { s with to_write := s.to_write ++ [first_time_calls] }  -- add to queue
      -- Find and recursively process subconditions under the same register state.
      let mut subconditions_allowed := true
      let mut subcondition_nodes : List Stmt := []
      for body_node in body do
        match body_node with
        | .ifStmt t2 b2 o2 =>
          if !subconditions_allowed then throw Err.esdSyntaxError
          subcondition_nodes := subcondition_nodes ++ [Stmt.ifStmt t2 b2 o2]
        | _ => subconditions_allowed := false
      plan_condition_registers fuel subcondition_nodes
      plan_condition_registers fuel rest
    | _ => throw .esdSyntaxError  -- test() method must contain only IF blocks

/-- `ESPCompiler.save_into_next_available_register`: claim the lowest empty
slot, remove the call from `current_to_write`, and return the store byte
`167 + slot`.  If every slot is full the Python function falls off the end and
returns `None` (the caller then crashes appending it); modelled as `none`. -/
def save_into_next_available_register (c : CallSig) : M (Option (List Nat)) := do
  let st ← get
  match st.registers.findIdx? (· == none) with
  | some i => do
    let newCur ← liftE (py_remove st.current_to_write c)
    set { st with registers := st.registers.set i (some c), current_to_write := newCur }
    pure (some [i + 167])
  | none => pure none

/-- Argument values handed back to `compile_ezl` by `compile_test_function`:
plain Python ints or verbatim AST nodes. -/
def argToEzl (a : ArgVal) : Sum Int SymNode :=
  match a with
  | .int n => .inl n
  | .node s => .inr s

mutual

/-- `ESPCompiler.compile_ezl` on an AST expression node (the isinstance
chain of the source, in order).  The `not` branch always raises: `is_call`
tests `isinstance(node, ast.Expr)`, the statement wrapper, which is never
true of the bare `ast.Call` operand of a `UnaryOp`. -/
def compile_ezl (tb : Tables) : Nat → TestExpr → M (List Nat)
  | 0, _ => throw .fuelOut
  | fuel + 1, node =>
    match node with
    | .num n => liftE (compile_number n)
    | .neg (.num n) => liftE (compile_number (-n))
    | .neg _ => throw .esdSyntaxError   -- negating a non-numeric value
    | .notOp _ => throw .esdSyntaxError -- is_call(operand) is False for bare expressions
    | .boolOp isAnd vs => compile_boolop tb fuel isAnd true vs
    | .call f args kws => compile_test_function tb fuel f args kws none
    | .sym (.nameN _ id_) =>
      if id_ == "MACHINE_CALL_STATUS" then pure [0xB9]
      else if id_ == "ONGOING" then pure [0xBA]
      else throw .esdSyntaxError
    | .sym (.subN _ base idx) =>
      if base == "MACHINE_ARGS" then do
        let nb ← liftE (compile_number idx)
        pure (nb ++ [0xB8])
      else throw .esdSyntaxError
    | .attrRef m at_ => do
      let st ← get
      match glookup st.globals m at_ with
      | some v => liftE (compile_number v)
      | none => throw .pyKeyError
    | .boolConst _ => throw .pyTypeError  -- falls through every branch to the final raise

/-- `compile_ezl` applied to a value returned by `parse_args`: a plain int
hits the leading `isinstance(node, (int, float))` branch, a kept AST node is
compiled as that node. -/
def compile_ezl_arg (tb : Tables) : Nat → ArgVal → M (List Nat)
  | 0, _ => throw .fuelOut
  | fuel + 1, a =>
    match a with
    | .int n => liftE (compile_number n)
    | .node s => compile_ezl tb fuel (.sym s)

/-- The `ast.BoolOp` loop of `compile_ezl`: per operand, compile it, then
append `0xB7` if the chain is an AND and no register writes remain in
`current_to_write`, else `0xA6`; after every operand beyond the first also
append the combinator `0x98` (AND) / `0x99` (OR). -/
def compile_boolop (tb : Tables) : Nat → Bool → Bool → List TestExpr → M (List Nat)
  | 0, _, _, _ => throw .fuelOut
  | _ + 1, _, _, [] => pure []
  | fuel + 1, isAnd, isFirst, v :: rest => do
    let cv ← compile_ezl tb fuel v
    let st ← get
    let term : List Nat := if isAnd && st.current_to_write.isEmpty then [0xB7] else [0xA6]
    let comb : List Nat :=
      if isFirst then [] else if isAnd then [0x98] else [0x99]
    let restB ← compile_boolop tb fuel isAnd false rest
    pure (cv ++ term ++ comb ++ restB)

/-- `ESPCompiler.compile_test_function`: resolve the function id, parse the
argument signature, load from a register if the signature occupies one,
otherwise emit id + args + arg-count terminator, and if the signature is in
`current_to_write`, store it into a register — note the source removes the
signature from `current_to_write` a second time after
`save_into_next_available_register` already removed it. -/
def compile_test_function (tb : Tables) :
    Nat → String → List TestExpr → List TestExpr → Option Nat → M (List Nat)
  | 0, _, _, _, _ => throw .fuelOut
  | fuel + 1, fname, argNodes, kwNodes, equals => do
    if !kwNodes.isEmpty then throw Err.esdSyntaxError  -- no keyword arguments
    let f_id ←
      match tb.test_functions fname with
      | some i => pure i
      | none => liftE (test_default fname)
    let stG ← get
    let args ← liftE (parse_args_pure stG.globals argNodes)
    let call : CallSig := ⟨.idHead f_id, args⟩
    let st ← get
    if st.registers.contains (some call) then
      -- Load from register.
      pure [st.registers.findIdx (· == some call) + 175]
    else do
      let idB ← liftE (compile_number f_id)
      let argB ← compile_ezl_args tb fuel args
      let fab ←
        match tb.function_arg_bytes args.length with
        | some bs => pure bs
        | none => throw Err.pyKeyError
      let base := idB ++ argB ++ fab
      let st2 ← get
      let withStore ←
        if st2.current_to_write.contains call then do
          let sres ← save_into_next_available_register call
          match sres with
          | none => throw Err.pyTypeError  -- `compiled += None`
          | some sb => do
            let st3 ← get
            let newCur ← liftE (py_remove st3.current_to_write call)  -- second removal
            set { st3 with current_to_write := newCur }
            pure (base ++ sb)
        else pure base
      match equals with
      | none => pure withStore
      | some 0 => pure (withStore ++ [0x40, 0x95])
      | some 1 => pure (withStore ++ [0x41, 0x95])
      | some _ => throw Err.pyValueError  -- internal error: equals must be 0 or 1

/-- `b"".join(self.compile_ezl(arg) for arg in args)`. -/
def compile_ezl_args (tb : Tables) : Nat → List ArgVal → M (List Nat)
  | 0, _ => throw .fuelOut
  | _ + 1, [] => pure []
  | fuel + 1, a :: rest => do
    let ab ← compile_ezl_arg tb fuel a
    let restB ← compile_ezl_args tb fuel rest
    pure (ab ++ restB)

end

/-- `ESPCompiler.build_command`: compile one command statement into a
`Command(bank, f_id, args)` record. -/
def build_command (tb : Tables) (fuel : Nat) (node : Stmt) : M Command := do
  match node with
  | .callStmt c => do
    let (bank, f_id) ←
      if is_state_machine_call (.callStmt c) then
        match c.func with
        | .subscripted _ n => pure ((6 : Int), (0x80000000 : Int) - n)
        | .named _ => throw Err.esdSyntaxError  -- unreachable: guarded by the check above
      else
        match c.func with
        | .named fn =>
          (match tb.commands fn with
           | some (b, i) => pure (b, i)
           | none => liftE (command_default fn))
        | .subscripted _ _ =>
          -- `node.value.func.id` raises AttributeError, caught and re-raised as ESDError
          throw Err.esdError
    let argNodes := c.args ++ c.kwargs  -- keyword args treated as trailing positional
    let cargs ← argNodes.mapM (fun a => do
      let b ← compile_ezl tb fuel a
      pure (b ++ [0xA1]))
    pure ⟨bank, f_id, cargs⟩
  | _ => throw .esdSyntaxError  -- expected only function calls

/-- The validation loop at the top of `build_conditions` (lines 245-257):
every top-level statement must be an `If`; a trailing `orelse` is rewritten by
APPENDING a synthetic always-true `If` to the very list that was passed in
(`if_nodes.append(...)` mutates the caller's AST); an `orelse` on any
non-final node is an error.  Python's `enumerate` iterates the freshly
appended node too, which is why the loop is modelled on a growing list. -/
def validate_loop : Nat → List Stmt → Nat → Except Err (List Stmt)
  | 0, _, _ => .error .fuelOut
  | fuel + 1, l, i =>
    match l[i]? with
    | none => .ok l
    | some (Stmt.ifStmt _ _ els) =>
      if els.isEmpty then validate_loop fuel l (i + 1)
      else if i ≠ l.length - 1 then .error .esdSyntaxError  -- 'else' only at the end
      else validate_loop fuel (l ++ [Stmt.ifStmt (TestExpr.num 1) els []]) (i + 1)
    | some _ => .error .esdSyntaxError  -- test() must contain only IF blocks

/-- Entry point of the validation loop. -/
def validate_ifs (fuel : Nat) (l : List Stmt) : Except Err (List Stmt) :=
  validate_loop fuel l 0

/-- `ESPCompiler.build_conditions`: the single unconditional-Return shortcut,
the else-rewriting validation loop, one `plan_condition_registers` pass, then
the per-node compile loop (consume one queue entry, compile the test with an
`0xA1` terminator, split the body into pass commands / subconditions / return,
and recurse into subconditions without resetting register state). -/
def build_conditions (tb : Tables) : Nat → List Stmt → M (List Condition)
  | 0, _ => throw .fuelOut
  | fuel + 1, if_nodes => do
    match if_nodes with
    | [Stmt.ret rv] =>
      -- A single Return: unconditional transition.
      match rv with
      | .negConst n =>
        if n = 1 then pure [Condition.mk (-1) [0x41, 0xA1] [] []]
        else throw Err.esdSyntaxError  -- next state must be a State class or -1
      | .constE _ => throw Err.esdSyntaxError  -- should return a state class name
      | .nameE s => do
        let st ← get
        match dlookup st.state_info s with
        | none => throw Err.esdError  -- could not find a state class with that name
        | some info => pure [Condition.mk info.index [0x41, 0xA1] [] []]
    | _ => do
      let elabNodes ← liftE (validate_ifs (if_nodes.length + 2) if_nodes)
      plan_condition_registers (fuel + 1) elabNodes  -- determines upcoming register saves/loads
      let mut conditions : List Condition := []
      for if_node in elabNodes do
        match if_node with
        | .ifStmt test body _orelse => do
          -- current_to_write = to_write.get()
          let stq ← get
          match stq.to_write with
          | [] => throw Err.queueEmpty
          | entry :: restQ =>
            set { stq with to_write := restQ, current_to_write := entry }
          let testB ← compile_ezl tb fuel test
          let test_ezl := testB ++ [0xA1]
          let mut pass_commands : List Command := []
          let mut subcondition_nodes : List Stmt := []
          let mut next_state_index : Int := -1
          let mut pass_commands_allowed := true
          let subconditions_allowed := true  -- never set False here (dead guard below)
          for (j, node) in body.enum do
            if is_call node then
              if !pass_commands_allowed then throw Err.esdSyntaxError
              let cmd ← build_command tb fuel node
              pass_commands := pass_commands ++ [cmd]
            else
              match node with
              | .ifStmt t2 b2 o2 =>
                if !subconditions_allowed then throw Err.esdSyntaxError
                pass_commands_allowed := false
                subcondition_nodes := subcondition_nodes ++ [Stmt.ifStmt t2 b2 o2]
              | .ret rv =>
                if j ≠ body.length - 1 then throw Err.esdSyntaxError  -- return must be last
                match rv with
                | .constE n =>
                  if n = -1 then next_state_index := -1
                  else throw Err.esdSyntaxError  -- not an ast.Name
                | .nameE s => do
                  let st2 ← get
                  match dlookup st2.state_info s with
                  | none => throw Err.esdError
                  | some info => next_state_index := info.index
                | .negConst _ =>
                  -- `return -1` parses as UnaryOp(USub, Constant(1)): the
                  -- `isinstance(node.value, ast.Constant)` test fails and the
                  -- Name check then raises.
                  throw Err.esdSyntaxError
              | _ => pure ()  -- any other statement is silently skipped
          -- Condition registers are *not* reset when building subconditions.
          let subs ←
            if subcondition_nodes.isEmpty then pure []
            else build_conditions tb fuel subcondition_nodes
          conditions := conditions ++ [Condition.mk next_state_index test_ezl pass_commands subs]
        | _ => throw Err.esdSyntaxError  -- unreachable: validate_ifs only keeps If nodes
      pure conditions

/-- `ast.get_docstring` on a class body: the leading string expression, if any. -/
def get_docstring (body : List ClassElem) : Option String :=
  match body.head? with
  | some (.strExpr s) => some s
  | _ => none

/-- `ESPCompiler.scan_state`: require a docstring matching
`([0-9]+)(:\s*.*)?`, record index, description and the body after the
docstring in `state_info` keyed by the class NAME. -/
def scan_state (c : ClassNode) : M Unit := do
  match get_docstring c.body with
  | none => throw Err.esdSyntaxError  -- no docstring given for state
  | some ds => do
    let digits := takeDigits ds.data
    if digits.isEmpty then
      throw Err.esdSyntaxError  -- invalid docstring (regex match fails)
    else do
      let idx := digitsVal digits 0
      let description :=
        match ds.data.drop digits.length with
        | ':' :: _ => some (String.mk (ds.data.drop digits.length))
        | _ => none
      modify fun st =>
        { st with
          state_info :=
            dset st.state_info c.name ⟨(idx : Int), description, c.body.drop 1⟩ }

/-- `ESPCompiler.build_state`: dispatch the state class members
(`previous_states` ignored; `test`/`enter`/`exit`/`ongoing` at most once each,
with duplication detected by non-emptiness of the already-built list). -/
def build_state (tb : Tables) (fuel : Nat) (index : Int) (nodes : List ClassElem) :
    M StateRec := do
  let mut conditions : List Condition := []
  let mut enter_commands : List Command := []
  let mut exit_commands : List Command := []
  let mut ongoing_commands : List Command := []
  for node in nodes do
    match node with
    | .funcD fname fbody =>
      if fname == "previous_states" then
        continue  -- ignore informative method
      else if fname == "test" then do
        if !conditions.isEmpty then throw Err.esdSyntaxError  -- defined more than once
        conditions ← build_conditions tb fuel fbody
      else if fname == "enter" then do
        if !enter_commands.isEmpty then throw Err.esdSyntaxError
        enter_commands ← fbody.mapM (build_command tb fuel)
      else if fname == "exit" then do
        if !exit_commands.isEmpty then throw Err.esdSyntaxError
        exit_commands ← fbody.mapM (build_command tb fuel)
      else if fname == "ongoing" then do
        if !ongoing_commands.isEmpty then throw Err.esdSyntaxError
        ongoing_commands ← fbody.mapM (build_command tb fuel)
      else
        throw Err.esdSyntaxError  -- unexpected state function
    | _ => throw Err.esdSyntaxError  -- non-function appeared in state class
  pure ⟨index, conditions, enter_commands, exit_commands, ongoing_commands⟩

/-- `ESPCompiler.compile_script`: iterate `self.tree.body[1:]` (the first
top-level statement is ALWAYS skipped), process imports and class scans, then
build every state recorded in `state_info`, inserting into `self.states`
keyed by the state index. -/
def compile_script (tb : Tables) (fuel : Nat) (body : List TopNode) : M Unit := do
  modify fun st => { st with globals := [] }  -- self.globals = dict()
  for node in body.drop 1 do
    match node with
    | .importStmt => throw Err.esdSyntaxError  -- imports must be from-imports
    | .importFromStmt binds =>
      modify fun st => { st with globals := st.globals ++ binds }
    | .classDef c => scan_state c
    | .otherTop => throw Err.esdSyntaxError  -- invalid top-level content
  let st ← get
  for (_, info) in st.state_info do
    let s ← build_state tb fuel info.index info.nodes
    modify fun st2 => { st2 with states := dset st2.states info.index s }

/-- Run the whole compiler from a fresh instance and return the final
instance state (whose `states` field is the compiled state machine). -/
def run_compiler (tb : Tables) (fuel : Nat) (body : List TopNode) :
    Except Err CompilerSt :=
  ((compile_script tb fuel body).run initSt).map (·.2)

/-
Concrete example data used by the theorems below.  The external tables are
sample instantiations of the out-of-scope per-game data: test functions
`A, B, F, G` resolve to ids `1, 2, 5, 6`, and the argument-count terminator
table maps `n` to the single byte `0x79 + n`.
-/

/-- Sample external tables. -/
def exTables : Tables :=
  { test_functions := fun s =>
      if s == "A" then some 1 else if s == "B" then some 2
      else if s == "F" then some 5 else if s == "G" then some 6 else none
    commands := fun _ => none
    function_arg_bytes := fun n => some [0x79 + n] }

/-- C1 input: `if F(1): return A` followed by `if F(1): return B` — the same
call `F(1)` at two different condition nodes. -/
def c1stmts : List Stmt :=
  [ Stmt.ifStmt (.call "F" [.num 1] []) [Stmt.ret (.nameE "A")] []
  , Stmt.ifStmt (.call "F" [.num 1] []) [Stmt.ret (.nameE "B")] [] ]

/-- Instance state with states `A` (index 10) and `B` (index 11) scanned. -/
def c1st0 : CompilerSt :=
  { initSt with state_info := [("A", ⟨10, none, []⟩), ("B", ⟨11, none, []⟩)] }

/-- C2 input: a condition node `if A():` whose body is a nested subcondition
`if B(): return S`. -/
def c2stmts : List Stmt :=
  [ Stmt.ifStmt (.call "A" [] [])
      [Stmt.ifStmt (.call "B" [] []) [Stmt.ret (.nameE "S")] []] [] ]

/-- Instance state with state `S` (index 7) scanned. -/
def c2st0 : CompilerSt :=
  { initSt with state_info := [("S", ⟨7, none, []⟩)] }

/-- C3: the test expression `F(1) and G(2)`, used verbatim in BOTH states. -/
def c3test : TestExpr := .boolOp true [.call "F" [.num 1] [], .call "G" [.num 2] []]

/-- C3 input script: two states with syntactically identical test trees
(the first top-level element stands in the skipped docstring slot). -/
def c3body : List TopNode :=
  [ TopNode.otherTop
  , TopNode.classDef ⟨"S1", [.strExpr "1",
      .funcD "test" [Stmt.ifStmt c3test [Stmt.ret (.nameE "S2")] []]]⟩
  , TopNode.classDef ⟨"S2", [.strExpr "2",
      .funcD "test" [Stmt.ifStmt c3test [Stmt.ret (.nameE "S1")] []]]⟩ ]

/-- C4 input: two state classes with DIFFERENT names `A`, `B` but the SAME
declared index `1`; `A` has a test block, `B` has none. -/
def c4body : List TopNode :=
  [ TopNode.otherTop
  , TopNode.classDef ⟨"A", [.strExpr "1", .funcD "test" [Stmt.ret (.negConst 1)]]⟩
  , TopNode.classDef ⟨"B", [.strExpr "1"]⟩ ]

/-- The same script with only class `A`, for comparison. -/
def c4bodyA : List TopNode :=
  [ TopNode.otherTop
  , TopNode.classDef ⟨"A", [.strExpr "1", .funcD "test" [Stmt.ret (.negConst 1)]]⟩ ]

/-- C5: a first occurrence of `F(MACHINE_ARGS[0])` (subscript node id 1). -/
def c5_occ1 : TestExpr := .call "F" [.sym (.subN 1 "MACHINE_ARGS" 0)] []

/-- C5: a second, textually identical occurrence of `F(MACHINE_ARGS[0])`
elsewhere in the tree — a distinct AST object (node id 2). -/
def c5_occ2 : TestExpr := .call "F" [.sym (.subN 2 "MACHINE_ARGS" 0)] []

/-- C6: instance state in which the signature `(5, 1)` built by
`compile_test_function` for `F(1)` is the queued first-time write of the
current node, occurring exactly once, with all registers empty. -/
def c6st : CompilerSt := { initSt with current_to_write := [⟨.idHead 5, [.int 1]⟩] }

/-- C7 input: `if A() and B(): return S1` with `A`, `B` first-seen. -/
def c7stmts : List Stmt :=
  [ Stmt.ifStmt (.boolOp true [.call "A" [] [], .call "B" [] []])
      [Stmt.ret (.nameE "S1")] [] ]

/-- Instance state with state `S1` (index 3) scanned. -/
def c7st0 : CompilerSt :=
  { initSt with state_info := [("S1", ⟨3, none, []⟩)] }

/-- C7: instance state with a first-time register write still pending for the
current node (so an AND chain must use the continue byte `0xA6`). -/
def c7pend : CompilerSt :=
  { initSt with current_to_write := [⟨.nameHead "Z", []⟩] }

/-- C9: a well-formed script tail (one state class) placed after an arbitrary
first top-level statement. -/
def c9rest : List TopNode :=
  [TopNode.classDef ⟨"A", [.strExpr "1", .funcD "test" [Stmt.ret (.negConst 1)]]⟩]

/-- C10 witness input: a single `if` whose `orelse` is `return -1`. -/
def c10ex : List Stmt :=
  [Stmt.ifStmt (.boolConst true) [Stmt.ret (.nameE "S")] [Stmt.ret (.negConst 1)]]

/-
Theorems.  Helper lemmas first, then one theorem per claim (with witnesses
and counterexamples where the claim status requires them).
-/

/-- If every statement from position `i` on is an `If` with empty `orelse`,
the validation loop terminates without touching the list. -/
theorem validate_loop_all_plain (fuel : Nat) :
    ∀ (i : Nat) (l : List Stmt),
      (∀ s ∈ l.drop i, ∃ t b, s = Stmt.ifStmt t b []) →
      l.length - i < fuel →
      validate_loop fuel l i = .ok l := by
  induction fuel with
  | zero => intro i l _ h; omega
  | succ fuel ih =>
    intro i l hall hlen
    unfold validate_loop
    cases hget : l[i]? with
    | none => simp
    | some s =>
      have hmem : s ∈ l.drop i := by
        have h0 : (l.drop i)[0]? = some s := by
          rw [List.getElem?_drop]; simpa using hget
        exact List.getElem?_mem h0
      obtain ⟨t, b, rfl⟩ := hall s hmem
      have hlt : i < l.length := by
        by_contra hge
        have hn : l[i]? = none := List.getElem?_eq_none (by omega)
        rw [hn] at hget; exact absurd hget (by simp)
      simp only [List.isEmpty_nil, if_true]
      apply ih (i + 1) l
      · intro s2 hs2
        apply hall
        have hdd : l.drop (i + 1) = (l.drop i).drop 1 := by
          rw [List.drop_drop]
        rw [hdd] at hs2
        exact List.mem_of_mem_drop hs2
      · omega

/-- If the final statement is an `If` with a nonempty `orelse` and everything
before it (from position `i` on) is an `If` with empty `orelse`, the loop
appends exactly one synthetic always-true `If` holding the `orelse` body. -/
theorem validate_loop_else_last (fuel : Nat) :
    ∀ (i : Nat) (l : List Stmt) (t : TestExpr) (b o : List Stmt),
      o.isEmpty = false →
      l[l.length - 1]? = some (Stmt.ifStmt t b o) →
      (∀ j, j < l.length - 1 → ∃ t2 b2, l[j]? = some (Stmt.ifStmt t2 b2 [])) →
      i < l.length →
      l.length + 2 - i < fuel →
      validate_loop fuel l i = .ok (l ++ [Stmt.ifStmt (TestExpr.num 1) o []]) := by
  induction fuel with
  | zero => intro i l _ _ _ _ _ _ h; omega
  | succ fuel ih =>
    intro i l t b o ho hlast hplain hi hlen
    unfold validate_loop
    by_cases hcase : i < l.length - 1
    · obtain ⟨t2, b2, hj⟩ := hplain i hcase
      rw [hj]
      simp only [List.isEmpty_nil, if_true]
      exact ih (i + 1) l t b o ho hlast hplain (by omega) (by omega)
    · have hieq : i = l.length - 1 := by omega
      rw [hieq, hlast]
      simp only [ho, Bool.false_eq_true, if_false, ne_eq, not_true_eq_false, if_neg]
      have hstep : l.length - 1 + 1 = l.length := by omega
      rw [hstep]
      apply validate_loop_all_plain
      · intro s hs
        have hdl : (l ++ [Stmt.ifStmt (TestExpr.num 1) o []]).drop l.length
            = [Stmt.ifStmt (TestExpr.num 1) o []] := by
          simp
        rw [hdl] at hs
        have hseq : s = Stmt.ifStmt (TestExpr.num 1) o [] := by simpa using hs
        exact ⟨TestExpr.num 1, o, hseq⟩
      · simp
        omega

/-- Claim C1 (code bug).  In the state test tree `c1stmts` the same source
call `F(1)` occurs at two condition nodes.  The planner queues the repeat for
a register write, but the queued signature is keyed by the function NAME
(`get_calls` builds `("F", 1)`) while `compile_test_function` looks up the
signature keyed by the resolved id (`(5, 1)`), so the store never fires: both
nodes compile to the identical full call encoding `[69, 65, 122, 161]` with
no store byte `167+slot` and no load byte `175+slot`, and the queued entry is
still sitting unconsumed in `current_to_write` afterwards.  The third
conjunct records that the two signatures are unequal. -/
theorem C1_register_store_never_fires :
    (((build_conditions exTables 50 c1stmts).run c1st0).map
      (fun p => (p.1.map Condition.test_ezl, p.2.current_to_write)))
      = Except.ok ([[69, 65, 122, 161], [69, 65, 122, 161]],
                   [⟨SigHead.nameHead "F", [ArgVal.int 1]⟩])
    ∧ (CallSig.mk (SigHead.nameHead "F") [ArgVal.int 1]
        ≠ CallSig.mk (SigHead.idHead 5) [ArgVal.int 1]) :=
  ⟨rfl, by decide⟩

/-- Claim C2, counterexample.  The claim says the planner runs exactly once
over the whole tree, producing one write-queue entry per condition node, each
consumed exactly once — which entails that after `build_conditions` finishes
the queue is empty.  On `c2stmts` (one node with one subcondition) the nested
`build_conditions` call re-runs `plan_condition_registers` on the
subcondition list, enqueueing a second entry for the already-planned node
`if B():` (now flagged as a register write because `B` is already in the seen
set); that entry is never consumed and is left on the queue. -/
theorem C2_planner_rerun_counterexample :
    ((build_conditions exTables 50 c2stmts).run c2st0).map (fun p => p.2.to_write)
      = Except.ok [[⟨SigHead.nameHead "B", []⟩]] := rfl

/-- Claim C2, amended.  The planner is re-invoked by every recursive
`build_conditions` call (once per (sub)condition list), so subcondition nodes
are planned twice; because the queue is FIFO and the initial top-level pass
enqueues first, compilation still consumes exactly the initial pass's entries
one per node in depth-first order — the nodes compile exactly as first
planned (full encodings, no stores) — while the duplicate entries from
re-planning stay on the queue and the write counter is inflated (here to 1). -/
theorem C2_planner_rerun_amended :
    ((build_conditions exTables 50 c2stmts).run c2st0).map
      (fun p => (p.1.map Condition.test_ezl,
                 p.1.map (fun c => c.subconditions.map Condition.test_ezl),
                 p.2.to_write, p.2.to_write_count))
      = Except.ok ([[65, 121, 161]], [[[66, 121, 161]]],
                   [[⟨SigHead.nameHead "B", []⟩]], 1) := rfl

/-- Claim C3 (code bug).  `reset_condition_registers` exists in the source
but is never called, so planner state persists across states.  In `c3body`
the two states have syntactically identical test trees (`c3test` verbatim in
both), yet they compile to different bytes: state 1 gets the short-circuit
terminator `0xB7` after each operand, while in state 2 the calls `F(1)`,
`G(2)` are already in the leaked seen-set, get queued as pending register
writes, and force the continue byte `0xA6` instead — observable leakage that
the claimed per-state clearing would prevent. -/
theorem C3_register_leak_across_states :
    (run_compiler exTables 50 c3body).map
      (fun st => st.states.map (fun p => (p.1, p.2.conditions.map Condition.test_ezl)))
      = Except.ok [(1, [[69, 65, 122, 0xB7, 70, 66, 122, 0xB7, 0x98, 0xA1]]),
                   (2, [[69, 65, 122, 0xA6, 70, 66, 122, 0xA6, 0x98, 0xA1]])] := rfl

/-- Claim C4, counterexample.  `c4body` declares two state classes `A` and
`B` with the same index `1`; the claim says compilation must fail, but it
succeeds. -/
theorem C4_duplicate_index_counterexample :
    (run_compiler exTables 50 c4body).isOk = true := rfl

/-- Claim C4, amended.  A duplicate state index is NOT an error: the dict
assignment `self.states[index] = ...` silently overwrites, keeping only the
state built from the later class definition.  With both classes the machine
holds only `B`'s (empty-conditions) state at index 1; with class `A` alone
the same index holds `A`'s one-condition state. -/
theorem C4_duplicate_index_amended :
    (run_compiler exTables 50 c4body).map
      (fun st => st.states.map (fun p => (p.1, p.2.conditions.map Condition.test_ezl)))
      = Except.ok [(1, [])]
    ∧ (run_compiler exTables 50 c4bodyA).map
      (fun st => st.states.map (fun p => (p.1, p.2.conditions.map Condition.test_ezl)))
      = Except.ok [(1, [[0x41, 0xA1]])] :=
  ⟨rfl, rfl⟩

/-- Claim C5, counterexample.  Two textually identical occurrences of
`F(MACHINE_ARGS[0])` at different places in the tree are two distinct
`ast.Subscript` objects; `parse_args` keeps the node objects themselves, and
Python compares AST nodes by identity, so the two signatures built by
`get_calls` are NOT equal, contradicting the claimed value equality for
symbolic arguments. -/
theorem C5_symbolic_arg_identity_counterexample :
    get_calls [] c5_occ1
      = .ok [⟨.nameHead "F", [.node (.subN 1 "MACHINE_ARGS" 0)]⟩]
    ∧ get_calls [] c5_occ2
      = .ok [⟨.nameHead "F", [.node (.subN 2 "MACHINE_ARGS" 0)]⟩]
    ∧ (CallSig.mk (.nameHead "F") [.node (.subN 1 "MACHINE_ARGS" 0)]
        ≠ CallSig.mk (.nameHead "F") [.node (.subN 2 "MACHINE_ARGS" 0)]) :=
  ⟨rfl, rfl, by decide⟩

/-- Claim C5, amended.  Signature equality is value equality for numeric
literals and for qualified constants (an `ast.Attribute` resolves through the
symbol table to its literal value, so `F(M.X)` with `M.X = 5` and `F(5)`
yield the same signature), but `ast.Name`/`ast.Subscript` arguments are kept
as node objects compared by identity, so repeated symbolic arguments such as
`MACHINE_ARGS[0]` written twice never compare equal. -/
theorem C5_signature_equality_amended :
    get_calls [("M", "X", 5)] (TestExpr.call "F" [.attrRef "M" "X"] [])
      = .ok [⟨.nameHead "F", [.int 5]⟩]
    ∧ get_calls [("M", "X", 5)] (TestExpr.call "F" [.num 5] [])
      = .ok [⟨.nameHead "F", [.int 5]⟩]
    ∧ (ArgVal.node (.subN 1 "MACHINE_ARGS" 0) ≠ ArgVal.node (.subN 2 "MACHINE_ARGS" 0)) :=
  ⟨rfl, rfl, by decide⟩

/-- Claim C6 (code bug).  In state `c6st` the signature `(5, 1)` of `F(1)` is
the queued first-time write of the current node, occurring exactly once, and
all eight registers are empty.  `save_into_next_available_register` stores
the call into slot 0 and removes it from the queue; `compile_test_function`
then removes it AGAIN (line 388), and Python `list.remove` on the
now-empty list raises `ValueError` — the claimed single removal and store
byte `167+0` never complete. -/
theorem C6_double_remove_raises :
    (compile_test_function exTables 50 "F" [.num 1] [] none).run c6st
      = .error Err.pyValueError := rfl

/-- Claim C7 (confirmed).  `if A() and B(): return S1` with `A`, `B`
first-seen compiles to the AND chain `cA ++ [0xB7] ++ cB ++ [0xB7, 0x98]`
plus the test terminator `0xA1`, with `next_state` = index of `S1` (= 3):
both operands are followed by the short-circuit terminator `0xB7` since no
register writes are pending, and the combinator `0x98` follows every operand
beyond the first.  An OR chain always uses `0xA6` and combinator `0x99`; an
AND chain with a register write still pending also uses `0xA6`. -/
theorem C7_and_or_chain_encoding :
    (((build_conditions exTables 50 c7stmts).run c7st0).map
      (fun p => (p.1.map Condition.test_ezl, p.1.map Condition.next_state)))
      = Except.ok ([[65, 121, 0xB7, 66, 121, 0xB7, 0x98, 0xA1]], [3])
    ∧ ((compile_ezl exTables 50 (.boolOp false [.call "A" [] [], .call "B" [] []])).run
        initSt).map (·.1)
      = Except.ok [65, 121, 0xA6, 66, 121, 0xA6, 0x99]
    ∧ ((compile_ezl exTables 50 (.boolOp true [.call "A" [] [], .call "B" [] []])).run
        c7pend).map (·.1)
      = Except.ok [65, 121, 0xA6, 66, 121, 0xA6, 0x98] :=
  ⟨rfl, rfl, rfl⟩

/-- Claim C8, counterexample.  For integers outside the signed 32-bit range
the claim says `compile_number` emits `0x82` plus a 4-byte encoding, but
`struct.pack('<i', n)` raises `struct.error` there, so compilation fails
instead. -/
theorem C8_compile_number_int32_counterexample :
    compile_number (2 ^ 31) = .error Err.structRange
    ∧ compile_number (-(2 ^ 31) - 1) = .error Err.structRange :=
  ⟨rfl, rfl⟩

/-- Claim C8, amended.  For every integer in the signed 32-bit range:
if `−64 ≤ n ≤ 62` the encoding is the single byte `n + 64` (which decodes
back to `n` via `byte − 64`); otherwise it is the opcode `0x82` followed by
the 4-byte little-endian two's-complement encoding of `n`.  Outside the
32-bit range `struct.pack` raises (see the counterexample). -/
theorem C8_compile_number_amended (n : Int)
    (h1 : -(2 ^ 31) ≤ n) (h2 : n < 2 ^ 31) :
    (-64 ≤ n ∧ n < 63 →
       compile_number n = .ok [(n + 64).toNat] ∧ ((n + 64).toNat : Int) - 64 = n)
    ∧ (¬(-64 ≤ n ∧ n < 63) →
       compile_number n = .ok (0x82 :: int32_le_bytes n)) := by
  constructor
  · intro h
    constructor
    · unfold compile_number
      rw [if_pos h]
    · omega
  · intro h
    unfold compile_number
    rw [if_neg h]
    unfold pack_int32_le
    rw [if_pos ⟨h1, h2⟩]
    rfl

/-- Witness for the amended C8 theorem at the concrete inputs 100 and 7. -/
theorem C8_compile_number_amended_witness :
    compile_number 100 = .ok [0x82, 100, 0, 0, 0]
    ∧ compile_number 7 = .ok [71] := by
  constructor
  · have h := (C8_compile_number_amended 100 (by decide) (by decide)).2 (by decide)
    rw [h]
    rfl
  · have h := ((C8_compile_number_amended 7 (by decide) (by decide)).1 (by decide)).1
    rw [h]
    rfl

/-- Claim C9 (confirmed).  `compile_script` iterates `tree.body[1:]`, so the
first top-level statement is never inspected: replacing it by anything else
(even an illegal `import`) gives the identical compilation result, and a
script whose first statement is an `import` (which would raise if processed)
still compiles successfully. -/
theorem C9_first_statement_skipped :
    (∀ (tb : Tables) (fuel : Nat) (x y : TopNode) (rest : List TopNode),
        run_compiler tb fuel (x :: rest) = run_compiler tb fuel (y :: rest))
    ∧ (run_compiler exTables 50 (TopNode.importStmt :: c9rest)).isOk = true :=
  ⟨fun _ _ _ _ _ => rfl, rfl⟩

/-- Claim C10 (confirmed).  The validation loop of `build_conditions` over a
statement list whose elements are all `If` nodes, with at most the last
carrying an `orelse`: when the last node's `orelse` is nonempty the loop
returns the caller's list with exactly one synthetic always-true `If`
(test `Constant(1)`, body = the `orelse`) APPENDED — the in-place
`if_nodes.append` mutation of the caller's AST — and in every other accepted
case it returns the input list unchanged. -/
theorem C10_else_rewrite_mutation (fuel : Nat) (l : List Stmt)
    (t : TestExpr) (b o : List Stmt)
    (hlast : l[l.length - 1]? = some (Stmt.ifStmt t b o))
    (hplain : ∀ j, j < l.length - 1 → ∃ t2 b2, l[j]? = some (Stmt.ifStmt t2 b2 []))
    (hfuel : l.length + 3 ≤ fuel) :
    validate_ifs fuel l
      = .ok (if o.isEmpty then l
             else l ++ [Stmt.ifStmt (TestExpr.num 1) o []]) := by
  have hl : l ≠ [] := by
    intro h
    subst h
    simp at hlast
  have hlen : 0 < l.length := List.length_pos.mpr hl
  unfold validate_ifs
  cases ho : o.isEmpty with
  | false =>
    simp only [Bool.false_eq_true, if_false]
    exact validate_loop_else_last fuel 0 l t b o ho hlast hplain (by omega) (by omega)
  | true =>
    have hoe : o = [] := by
      cases o with
      | nil => rfl
      | cons a as => simp at ho
    subst hoe
    simp only [if_true]
    apply validate_loop_all_plain
    · intro s hs
      rw [List.drop_zero] at hs
      obtain ⟨j, hj, hs⟩ := List.mem_iff_getElem.mp hs
      by_cases hjl : j < l.length - 1
      · obtain ⟨t2, b2, h2⟩ := hplain j hjl
        refine ⟨t2, b2, ?_⟩
        have hjs : l[j]? = some s := by
          rw [List.getElem?_eq_some_iff]
          exact ⟨hj, hs⟩
        rw [hjs] at h2
        exact ((Option.some.injEq _ _).mp h2.symm).symm
      · have hjeq : j = l.length - 1 := by omega
        subst hjeq
        have hjs : l[l.length - 1]? = some s := by
          rw [List.getElem?_eq_some_iff]
          exact ⟨hj, hs⟩
        rw [hjs] at hlast
        exact ⟨t, b, ((Option.some.injEq _ _).mp hlast.symm).symm⟩
    · omega

/-- Witness for C10 at the concrete one-node input `c10ex`, whose single `if`
carries `return -1` in its `orelse`: the returned list is the input plus the
synthetic always-true node. -/
theorem C10_else_rewrite_mutation_witness :
    validate_ifs 10 c10ex
      = .ok (c10ex ++ [Stmt.ifStmt (TestExpr.num 1) [Stmt.ret (.negConst 1)] []]) := by
  have h := C10_else_rewrite_mutation 10 c10ex (.boolConst true)
    [Stmt.ret (.nameE "S")] [Stmt.ret (.negConst 1)]
    rfl
    (by intro j hj; rw [show c10ex.length = 1 from rfl] at hj; omega)
    (by decide)
  exact h
